import Mathlib

/-!
Shallow embedding of `obs-active-window-switcher`
(`src/window_capture.rs` and `src/driver.rs`) and verification of the
specification claims about it.

Time is modelled in milliseconds as `Nat` (`Instant` / `Duration` from the
source).  Window handles (`HWND`) are modelled as `Int` (the source stores
`hwnd.0 : isize` as the registry key).  Channels are modelled as lists, reading
from the head and pushing at the tail.
-/

/-- `CapturedFrame` from `window_capture.rs`: the frame the worker emits.
`bytes` is the `Vec<u8>` payload, each byte a `Nat`. -/
structure CapturedFrame where
  hwnd : Int
  width : Nat
  height : Nat
  bytes : List Nat
deriving DecidableEq, Repr

/-- `RGBA` pixel (4 bytes: `mem::size_of::<RGBA>() = 4`). -/
structure RGBA where
  r : Nat
  g : Nat
  b : Nat
  a : Nat
deriving DecidableEq, Repr

/-- Reinterpreting one `RGBA` pixel as its 4 raw bytes
(`slice::from_raw_parts(row as *const u8, size_of_val(row))` in
`on_frame_arrived` reads the pixels byte by byte). -/
def rgbaBytes (p : RGBA) : List Nat := [p.r, p.g, p.b, p.a]

/-- The closure `ceil_nth = |x, n| (x + n - 1) / n * n` in `on_frame_arrived`. -/
def ceil_nth (x n : Nat) : Nat := (x + n - 1) / n * n

/-- The fps the worker is started with: `WindowCaptureArgs { fps: 60, .. }`
in `WindowCapture::run`. -/
def wcFps : Nat := 60

/-- `Handler::compute_next_update`, on times in milliseconds:
`next_update = self.next_update + 1000/fps; if now < next_update
{ next_update = now + 1000/fps }`. -/
def compute_next_update (next_update now fps : Nat) : Nat :=
  let nominal := next_update + 1000 / fps
  if now < nominal then now + 1000 / fps else nominal

/-- The raw buffer a platform delivery hands to `on_frame_arrived`:
`buffer.width()`, `buffer.height()`, `buffer.pixels()`. -/
structure FrameBuffer where
  width : Nat
  height : Nat
  pixels : List RGBA
deriving DecidableEq, Repr

/-- Outcome of one `on_frame_arrived` call.  `skipped`: rate gate returned
early.  `bufferFailed`: `frame.buffer()` was `Err` (a diagnostic message is
sent and the call returns).  `panicked`: a Rust panic (division by zero,
failed `assert_eq!`, or slice out of bounds) aborts the worker.
`emitted f`: exactly one frame `f` was pushed on `tx_frame`. -/
inductive FrameOutcome where
  | skipped
  | bufferFailed
  | panicked
  | emitted (f : CapturedFrame)
deriving DecidableEq, Repr

/-- The copy loop `for i in 0..height { bytes.extend(&pixels[i*row_pitch ..
i*row_pitch + width]) }`, rows `start, start+1, ..., start+k-1`.  Rust slicing
panics when the range exceeds the buffer, hence `Option`: `none` models the
panic. -/
def copyRowsAux (pixels : List RGBA) (width row_pitch : Nat) :
    Nat → Nat → Option (List Nat)
  | _, 0 => some []
  | i, k + 1 =>
    if i * row_pitch + width ≤ pixels.length then
      (copyRowsAux pixels width row_pitch (i + 1) k).map
        (fun rest => ((pixels.drop (i * row_pitch)).take width).flatMap rgbaBytes ++ rest)
    else
      none

/-- The whole copy loop of `on_frame_arrived`, rows `0..height`. -/
def copyRows (pixels : List RGBA) (width row_pitch height : Nat) :
    Option (List Nat) :=
  copyRowsAux pixels width row_pitch 0 height

/-- `Handler::on_frame_arrived`.  Returns the outcome and the handler's
`next_update` after the call.  `now` is the value of `Instant::now()` during
the call; `buf` is `none` when `frame.buffer()` fails.  Mirrors the source:
rate gate, buffer fetch, `row_pitch = pixels.len() / height` (division by zero
panics when `height = 0`), the `assert_eq!(row_pitch, ceil_nth(width, 64))`,
the row copy loop, the `tx_frame.send`, then `compute_next_update`. -/
def on_frame_arrived (next_update now fps : Nat) (hwnd : Int)
    (buf : Option FrameBuffer) : FrameOutcome × Nat :=
  if now < next_update then (.skipped, next_update)
  else
    match buf with
    | none => (.bufferFailed, next_update)
    | some b =>
      if b.height = 0 then (.panicked, next_update)
      else
        let row_pitch := b.pixels.length / b.height
        if row_pitch ≠ ceil_nth b.width 64 then (.panicked, next_update)
        else
          match copyRows b.pixels b.width row_pitch b.height with
          | none => (.panicked, next_update)
          | some bytes =>
            (.emitted ⟨hwnd, b.width, b.height, bytes⟩,
              compute_next_update next_update now fps)

/-- One platform callback at time `t` against the rate-limiter state: the
gate `if Instant::now() < self.next_update { return; }`, and on emission the
`compute_next_update` call.  Returns the new `next_update` and whether a frame
was emitted. -/
def processCallback (next_update t : Nat) : Nat × Bool :=
  if t < next_update then (next_update, false)
  else (compute_next_update next_update t wcFps, true)

/-- The emission times produced by a stream of callback times, threading the
handler's `next_update` through `processCallback`. -/
def emissionTimes (next_update : Nat) : List Nat → List Nat
  | [] => []
  | t :: ts =>
    let s := processCallback next_update t
    if s.2 then t :: emissionTimes s.1 ts else emissionTimes s.1 ts

/-- `WindowCaptureMessage` from `window_capture.rs`. -/
inductive WindowCaptureMessage where
  | Output (message : String)
  | Closed (hwnd : Int)
deriving DecidableEq, Repr

/-- The status messages `WindowCapture::run` itself sends on `tx_msg`, as a
function of the result of `Handler::start(settings)`: nothing on success, a
diagnostic `Output` followed by `Closed` on error. -/
def wcRunMessages (hwnd : Int) (startResult : Except String Unit) :
    List WindowCaptureMessage :=
  match startResult with
  | .ok _ => []
  | .error e =>
    [.Output ("[" ++ toString hwnd ++ "] failed to capture: " ++ e),
     .Closed hwnd]

/-- The capacity of the frame channel: `bounded(5)` in
`Driver::start_capture_for`. -/
def frameChannelCapacity : Nat := 5

/-- A blocking `send` on the bounded frame channel: succeeds (appends) when a
slot is free, otherwise `none` — the sender blocks, the queue is unchanged
and nothing is dropped. -/
def trySend (q : List CapturedFrame) (f : CapturedFrame) :
    Option (List CapturedFrame) :=
  if q.length < frameChannelCapacity then some (q ++ [f]) else none

/-- One operation on a frame channel: a producer `push` or a consumer
`try_recv` pop. -/
inductive ChanOp where
  | push (f : CapturedFrame)
  | pop
deriving Repr

/-- Effect of one operation on the channel queue.  A `push` against a full
queue blocks: the queue stays as it is. -/
def chanStep (q : List CapturedFrame) : ChanOp → List CapturedFrame
  | .push f => (trySend q f).getD q
  | .pop => q.tail

/-- The queue after a sequence of operations, starting from the fresh
(empty) channel. -/
def chanRun (ops : List ChanOp) : List CapturedFrame :=
  ops.foldl chanStep []

/-- One capture session's receiving ends held by the driver
(`WindowCaptureInterop`): the status channel and the frame channel. -/
structure CaptureSession where
  rx_msg : List WindowCaptureMessage
  rx_frame : List CapturedFrame
deriving DecidableEq, Repr

/-- The driver state the claims are about: the registry `cap_rxs`
(an association list keyed by `hwnd.0`; `HashMap` keys are unique, which the
model proves as an invariant) and `current_hwnd`. -/
structure DriverState where
  cap_rxs : List (Int × CaptureSession)
  current_hwnd : Option Int
deriving DecidableEq, Repr

/-- `Driver::new`: empty registry, no focus recorded. -/
def initialDriverState : DriverState := ⟨[], none⟩

/-- A session as freshly constructed by `start_capture_for`: both channels
newly created, hence empty. -/
def newSession : CaptureSession := ⟨[], []⟩

/-- `self.cap_rxs.contains_key(&hwnd.0)`. -/
def containsKey (caps : List (Int × CaptureSession)) (hwnd : Int) : Bool :=
  caps.any (fun p => p.1 = hwnd)

/-- `Driver::start_capture_for`: create the channels, spawn the worker, insert
the new session under `hwnd.0`. -/
def start_capture_for (s : DriverState) (hwnd : Int) : DriverState :=
  { s with cap_rxs := s.cap_rxs ++ [(hwnd, newSession)] }

/-- `Driver::handle_foreground_watcher_message` on `WindowChanged { hwnd }`:
record the focus, and start a capture only when no session for `hwnd`
exists. -/
def handle_foreground_watcher_message (s : DriverState) (hwnd : Int) :
    DriverState :=
  let s1 : DriverState := { s with current_hwnd := some hwnd }
  if containsKey s1.cap_rxs hwnd then s1 else start_capture_for s1 hwnd

/-- `Driver::handle_captures_message` (closure polling): for every session,
`try_recv` one status message; collect the `hwnd` of every `Closed` received;
then remove each collected key from the registry (and join its thread). -/
def handle_captures_message (s : DriverState) : DriverState :=
  let polled := s.cap_rxs.map (fun p =>
    match p.2.rx_msg with
    | [] => ((p.1, p.2), (none : Option Int))
    | m :: rest =>
      ((p.1, { p.2 with rx_msg := rest }),
       match m with
       | .Closed h => some h
       | .Output _ => none))
  let to_remove := polled.filterMap (fun q => q.2)
  { s with cap_rxs :=
      (polled.map (fun q => q.1)).filter (fun p => ¬ to_remove.contains p.1) }

/-- `Driver::handle_captures_frames` (frame polling): for every session,
`try_recv` one frame; forward it to the image viewer exactly when its `hwnd`
equals `current_hwnd`; a received frame is gone from the channel either way.
Returns the new state and the list of frames forwarded to the viewer. -/
def handle_captures_frames (s : DriverState) :
    DriverState × List CapturedFrame :=
  let polled := s.cap_rxs.map (fun p =>
    match p.2.rx_frame with
    | [] => ((p.1, p.2), (none : Option CapturedFrame))
    | f :: rest => ((p.1, { p.2 with rx_frame := rest }), some f))
  let sent := polled.filterMap (fun q =>
    match q.2 with
    | some f => if s.current_hwnd = some f.hwnd then some f else none
    | none => none)
  ({ s with cap_rxs := polled.map (fun q => q.1) }, sent)

/-- The captures phase of one `Driver::run` iteration, in the source's order:
`handle_captures_message()` then `handle_captures_frames()`. -/
def iterationCapturesPhase (s : DriverState) :
    DriverState × List CapturedFrame :=
  handle_captures_frames (handle_captures_message s)

/-! ## Helper lemmas -/

lemma width_le_ceil_nth (w : Nat) : w ≤ ceil_nth w 64 := by
  unfold ceil_nth
  omega

lemma rows_in_bounds (len height width : Nat) (_hh : 0 < height)
    (hs : len / height = ceil_nth width 64) :
    ∀ i, i < height → i * (len / height) + width ≤ len := by
  intro i hi
  have h1 : width ≤ len / height := hs ▸ width_le_ceil_nth width
  have h2 : height * (len / height) ≤ len := by
    rw [Nat.mul_comm]
    exact Nat.div_mul_le_self len height
  have h3 : (i + 1) * (len / height) ≤ height * (len / height) :=
    Nat.mul_le_mul_right _ hi
  nlinarith

lemma chanStep_length_le (q : List CapturedFrame) (op : ChanOp)
    (h : q.length ≤ frameChannelCapacity) :
    (chanStep q op).length ≤ frameChannelCapacity := by
  cases op with
  | push f =>
    unfold chanStep trySend
    by_cases hq : q.length < frameChannelCapacity
    · simp [hq]
      omega
    · simp [hq]
      exact h
  | pop =>
    simp only [chanStep]
    have := q.length_tail
    omega

lemma chanRun_go_length_le (ops : List ChanOp) :
    ∀ q, q.length ≤ frameChannelCapacity →
      (ops.foldl chanStep q).length ≤ frameChannelCapacity := by
  induction ops with
  | nil => intro q hq; simpa using hq
  | cons op ops ih =>
    intro q hq
    exact ih _ (chanStep_length_le q op hq)

lemma handle_foreground_cap_rxs (s : DriverState) (hwnd : Int) :
    (handle_foreground_watcher_message s hwnd).cap_rxs =
      if containsKey s.cap_rxs hwnd then s.cap_rxs
      else s.cap_rxs ++ [(hwnd, newSession)] := by
  unfold handle_foreground_watcher_message start_capture_for
  by_cases hc : containsKey s.cap_rxs hwnd <;> simp [hc]

lemma not_containsKey_not_mem (caps : List (Int × CaptureSession)) (hwnd : Int)
    (hc : ¬ containsKey caps hwnd = true) : hwnd ∉ caps.map Prod.fst := by
  intro hmem
  rcases List.mem_map.mp hmem with ⟨p, hp, hfst⟩
  exact hc (by
    unfold containsKey
    rw [List.any_eq_true]
    exact ⟨p, hp, by simp [hfst]⟩)

lemma handle_foreground_nodup (s : DriverState) (hwnd : Int)
    (h : (s.cap_rxs.map Prod.fst).Nodup) :
    (((handle_foreground_watcher_message s hwnd).cap_rxs.map Prod.fst).Nodup) := by
  rw [handle_foreground_cap_rxs]
  by_cases hc : containsKey s.cap_rxs hwnd = true
  · simpa [hc] using h
  · simp only [hc, Bool.false_eq_true, if_false, List.map_append]
    refine List.Nodup.append h (List.nodup_singleton _) ?_
    intro a ha hb
    rw [List.map_singleton, List.mem_singleton] at hb
    have ha2 : hwnd ∈ s.cap_rxs.map Prod.fst := by
      rw [show ((hwnd, newSession).1 = hwnd) from rfl] at hb
      exact hb ▸ ha
    exact not_containsKey_not_mem s.cap_rxs hwnd hc ha2

lemma foldl_foreground_nodup (events : List Int) :
    ∀ s : DriverState, (s.cap_rxs.map Prod.fst).Nodup →
      (((events.foldl handle_foreground_watcher_message s).cap_rxs.map
        Prod.fst).Nodup) := by
  induction events with
  | nil => intro s hs; simpa using hs
  | cons e es ih =>
    intro s hs
    exact ih _ (handle_foreground_nodup s e hs)

lemma copyRowsAux_eq (pixels : List RGBA) (width rp : Nat) :
    ∀ (k i : Nat), (∀ j, j < k → (i + j) * rp + width ≤ pixels.length) →
      copyRowsAux pixels width rp i k =
        some ((List.range k).flatMap (fun j =>
          ((pixels.drop ((i + j) * rp)).take width).flatMap rgbaBytes)) := by
  intro k
  induction k with
  | zero => intro i _; simp [copyRowsAux]
  | succ k ih =>
    intro i hb
    have h0 : i * rp + width ≤ pixels.length := by
      have := hb 0 (Nat.succ_pos k)
      simpa using this
    have hrest : ∀ j, j < k → (i + 1 + j) * rp + width ≤ pixels.length := by
      intro j hj
      have := hb (j + 1) (by omega)
      have he : i + (j + 1) = i + 1 + j := by omega
      rwa [he] at this
    unfold copyRowsAux
    rw [if_pos h0, ih (i + 1) hrest]
    simp only [Option.map_some']
    congr 1
    rw [List.range_succ_eq_map]
    simp only [List.flatMap_cons, Nat.add_zero, List.flatMap_map]
    congr 1
    refine congrArg (List.flatMap (List.range k)) (funext fun j => ?_)
    rw [show i + 1 + j = i + Nat.succ j from by omega]

lemma flatMap_rgbaBytes_length (l : List RGBA) :
    (l.flatMap rgbaBytes).length = 4 * l.length := by
  induction l with
  | nil => simp
  | cons p l ih => simp [rgbaBytes, ih]; omega

lemma copyRowsAux_length (pixels : List RGBA) (width rp : Nat) :
    ∀ (k i : Nat) (bs : List Nat), copyRowsAux pixels width rp i k = some bs →
      bs.length = k * (width * 4) := by
  intro k
  induction k with
  | zero => intro i bs h; simp [copyRowsAux] at h; simp [h.symm]
  | succ k ih =>
    intro i bs h
    unfold copyRowsAux at h
    by_cases h0 : i * rp + width ≤ pixels.length
    · rw [if_pos h0] at h
      cases hrec : copyRowsAux pixels width rp (i + 1) k with
      | none => rw [hrec] at h; simp at h
      | some rest =>
        rw [hrec] at h
        simp only [Option.map_some', Option.some.injEq] at h
        have hlenrow : ((pixels.drop (i * rp)).take width).length = width := by
          rw [List.length_take, List.length_drop]
          omega
        have : bs.length =
            (((pixels.drop (i * rp)).take width).flatMap rgbaBytes).length +
              rest.length := by
          rw [← h, List.length_append]
        rw [this, flatMap_rgbaBytes_length, hlenrow, ih (i + 1) rest hrec]
        ring
    · rw [if_neg h0] at h
      simp at h

lemma mem_handle_captures_frames_sent (s : DriverState) (f : CapturedFrame)
    (hf : f ∈ (handle_captures_frames s).2) :
    ∃ p ∈ s.cap_rxs, p.2.rx_frame.head? = some f ∧
      s.current_hwnd = some f.hwnd := by
  unfold handle_captures_frames at hf
  simp only [List.mem_filterMap, List.mem_map] at hf
  rcases hf with ⟨q, ⟨p, hp, hq⟩, hgq⟩
  subst hq
  refine ⟨p, hp, ?_⟩
  cases hsess : p.2.rx_frame with
  | nil =>
    simp only [hsess] at hgq
    exact absurd hgq (by simp)
  | cons f0 rest =>
    simp only [hsess] at hgq
    by_cases hcur : s.current_hwnd = some f0.hwnd
    · rw [if_pos hcur] at hgq
      have hff : f0 = f := by simpa using hgq
      subst hff
      refine ⟨?_, hcur⟩
      simp [hsess]
    · rw [if_neg hcur] at hgq
      simp at hgq

lemma handle_captures_frames_sent_of (s : DriverState)
    (p : Int × CaptureSession) (hp : p ∈ s.cap_rxs) (f : CapturedFrame)
    (hhead : p.2.rx_frame.head? = some f)
    (hcur : s.current_hwnd = some f.hwnd) :
    f ∈ (handle_captures_frames s).2 := by
  unfold handle_captures_frames
  simp only [List.mem_filterMap, List.mem_map]
  cases hsess : p.2.rx_frame with
  | nil => rw [hsess] at hhead; simp at hhead
  | cons f0 rest =>
    have hff : f0 = f := by rw [hsess] at hhead; simpa using hhead
    subst hff
    refine ⟨((p.1, { p.2 with rx_frame := rest }), some f0), ⟨p, hp, ?_⟩, ?_⟩
    · rw [hsess]
    · simp only
      rw [if_pos hcur]

lemma handle_captures_frames_cap_rxs (s : DriverState) :
    (handle_captures_frames s).1.cap_rxs =
      s.cap_rxs.map (fun p => (p.1, ⟨p.2.rx_msg, p.2.rx_frame.tail⟩)) := by
  unfold handle_captures_frames
  simp only [List.map_map]
  apply List.map_congr_left
  intro p _
  cases p with
  | mk k sess =>
    cases sess with
    | mk msgs frames =>
      cases frames <;> rfl

lemma containsKey_eq_false_iff (caps : List (Int × CaptureSession)) (h : Int) :
    containsKey caps h = false ↔ ∀ p ∈ caps, p.1 ≠ h := by
  unfold containsKey
  simp [List.any_eq_false]

lemma handle_captures_message_removes (s : DriverState) (A : Int)
    (sess : CaptureSession) (hmem : (A, sess) ∈ s.cap_rxs)
    (hmsg : sess.rx_msg.head? = some (.Closed A)) :
    containsKey (handle_captures_message s).cap_rxs A = false := by
  cases hsess : sess.rx_msg with
  | nil => rw [hsess] at hmsg; simp at hmsg
  | cons m rest =>
    have hm : m = .Closed A := by rw [hsess] at hmsg; simpa using hmsg
    subst hm
    unfold handle_captures_message
    rw [containsKey_eq_false_iff]
    intro p hpf
    simp only [List.mem_filter] at hpf
    have hpred := hpf.2
    simp only [decide_eq_true_eq] at hpred
    intro hpA
    apply hpred
    rw [hpA]
    have hA : A ∈ (s.cap_rxs.map (fun p =>
        match p.2.rx_msg with
        | [] => ((p.1, p.2), (none : Option Int))
        | m :: rest =>
          ((p.1, { p.2 with rx_msg := rest }),
           match m with
           | .Closed h => some h
           | .Output _ => none))).filterMap (fun q => q.2) := by
      simp only [List.mem_filterMap, List.mem_map]
      refine ⟨((A, { sess with rx_msg := rest }), some A), ⟨(A, sess), hmem, ?_⟩, rfl⟩
      rw [hsess]
    simpa using hA

/-! ## Claim theorems -/

/-- C2 (code bug evidence): `compute_next_update` does the opposite of the
claim.  With the previous scheduled instant at 0 ms and the nominal next
instant at `0 + 1000/60 = 16` ms, a call at `now = 100` ms — the wall clock
long past the nominal instant — keeps the stale nominal instant 16 instead of
scheduling relative to `now` (which would be 116), while a call at
`now = 5` ms — before the nominal instant — schedules relative to `now`
(21 instead of the nominal 16).  The comparison `now < next_update` in the
source is inverted with respect to the claimed drift correction. -/
theorem C2_drift_correction_inverted :
    compute_next_update 0 100 wcFps = 16 ∧
      0 + 1000 / wcFps < 100 ∧
      compute_next_update 0 5 wcFps = 5 + 1000 / wcFps ∧
      5 < 0 + 1000 / wcFps := by
  decide

/-- C3 (code bug evidence): burst catch-up.  With the handler's `next_update`
at 0 and callbacks at 100 ms, 101 ms and 102 ms (the first delayed far past
its scheduled instant, the rest arriving faster than the target rate), all
three callbacks emit frames: consecutive emissions are 1 ms apart, far below
the `1000/60 = 16` ms minimum spacing the claim asserts, because the next
scheduled instant is stacked on the old schedule (16, 32, 48) instead of
being recomputed relative to the delayed emission. -/
theorem C3_burst_catch_up :
    emissionTimes 0 [100, 101, 102] = [100, 101, 102] ∧
      101 - 100 < 1000 / wcFps ∧ 102 - 101 < 1000 / wcFps := by
  decide

/-- C4: the registry holds at most one capture session per window handle
after any sequence of focus-change events (the key list stays `Nodup`);
`WindowChanged` for an already-registered handle leaves the registry
untouched (Ensure is idempotent), and for a new handle inserts exactly one
freshly constructed session. -/
theorem C4_registry_at_most_one_session_per_handle :
    (∀ events : List Int,
        ((events.foldl handle_foreground_watcher_message
          initialDriverState).cap_rxs.map Prod.fst).Nodup) ∧
      (∀ s hwnd, containsKey s.cap_rxs hwnd = true →
        (handle_foreground_watcher_message s hwnd).cap_rxs = s.cap_rxs) ∧
      (∀ s hwnd, containsKey s.cap_rxs hwnd = false →
        (handle_foreground_watcher_message s hwnd).cap_rxs =
          s.cap_rxs ++ [(hwnd, newSession)]) := by
  refine ⟨fun events =>
      foldl_foreground_nodup events initialDriverState (by
        simp [initialDriverState]),
    fun s hwnd hc => ?_, fun s hwnd hc => ?_⟩
  · rw [handle_foreground_cap_rxs, if_pos hc]
  · rw [handle_foreground_cap_rxs, if_neg (by simp [hc])]

/-- Witness for C4 at concrete inputs: events 1, 2, 1 leave unique keys; a
second `WindowChanged` for handle 1 changes nothing; handle 2 is inserted
exactly once. -/
theorem C4_witness :
    ((([1, 2, 1] : List Int).foldl handle_foreground_watcher_message
      initialDriverState).cap_rxs.map Prod.fst).Nodup ∧
      (handle_foreground_watcher_message ⟨[(1, newSession)], none⟩ 1).cap_rxs
        = [(1, newSession)] ∧
      (handle_foreground_watcher_message ⟨[(1, newSession)], none⟩ 2).cap_rxs
        = [(1, newSession)] ++ [(2, newSession)] :=
  ⟨C4_registry_at_most_one_session_per_handle.1 [1, 2, 1],
    C4_registry_at_most_one_session_per_handle.2.1
      ⟨[(1, newSession)], none⟩ 1 (by decide),
    C4_registry_at_most_one_session_per_handle.2.2
      ⟨[(1, newSession)], none⟩ 2 (by decide)⟩

/-- C8: the frame channel is bounded at exactly 5 slots; any sequence of
pushes and pops starting from the fresh channel leaves at most 5 undelivered
frames queued, and a push against a full channel blocks — `trySend` refuses
(no slot is taken, nothing is dropped, the queue is unchanged). -/
theorem C8_frame_channel_bounded_at_5 :
    frameChannelCapacity = 5 ∧
      (∀ ops : List ChanOp, (chanRun ops).length ≤ frameChannelCapacity) ∧
      (∀ q f, frameChannelCapacity ≤ q.length →
        trySend q f = none ∧ chanStep q (.push f) = q) := by
  refine ⟨rfl, fun ops => chanRun_go_length_le ops [] (by simp), ?_⟩
  intro q f h
  have hnot : ¬ q.length < frameChannelCapacity := by omega
  constructor
  · unfold trySend
    rw [if_neg hnot]
  · simp only [chanStep]
    unfold trySend
    rw [if_neg hnot]
    rfl

/-- Witness for C8: six pushes on the fresh channel leave at most 5 frames,
and a push on a queue already holding 5 frames blocks and changes nothing. -/
theorem C8_witness :
    (chanRun (List.replicate 6 (ChanOp.push ⟨0, 0, 0, []⟩))).length ≤
        frameChannelCapacity ∧
      trySend (List.replicate 5 ⟨0, 0, 0, []⟩) ⟨0, 0, 0, []⟩ = none ∧
      chanStep (List.replicate 5 ⟨0, 0, 0, []⟩) (.push ⟨0, 0, 0, []⟩)
        = List.replicate 5 ⟨0, 0, 0, []⟩ :=
  ⟨C8_frame_channel_bounded_at_5.2.1 _,
    (C8_frame_channel_bounded_at_5.2.2 _ _ (by decide)).1,
    (C8_frame_channel_bounded_at_5.2.2 _ _ (by decide)).2⟩

/-- C9: when subscription setup (`Handler::start`) fails, the worker's run
emits exactly a diagnostic `Output` message followed by a `Closed` message
carrying its window handle, and nothing after it: `Closed` is the last
status message, so a closure message is always eventually delivered. -/
theorem C9_failure_emits_output_then_closed :
    ∀ (hwnd : Int) (e : String),
      (∃ m, wcRunMessages hwnd (.error e) = [.Output m, .Closed hwnd]) ∧
        (wcRunMessages hwnd (.error e)).getLast? = some (.Closed hwnd) :=
  fun hwnd e => ⟨⟨"[" ++ toString hwnd ++ "] failed to capture: " ++ e, rfl⟩, rfl⟩

/-- C10: with `fps = 60`, `Duration::from_millis(1000/fps)` is exactly 16 ms
(integer division, remainder 40 discarded); both branches of
`compute_next_update` advance by this same 16 ms interval; 16 ms corresponds
to 62.5 Hz (125 · 16 = 2 · 1000), not exactly 60 Hz (16 · 60 = 960 < 1000). -/
theorem C10_interval_is_16ms_62_5Hz :
    1000 / wcFps = 16 ∧ 1000 % wcFps = 40 ∧
      (∀ prev now, compute_next_update prev now wcFps = prev + 16 ∨
        compute_next_update prev now wcFps = now + 16) ∧
      125 * 16 = 2 * 1000 ∧ 16 * 60 = 960 ∧ 960 < 1000 := by
  refine ⟨by decide, by decide, fun prev now => ?_, by decide, by decide, by decide⟩
  have hdef : compute_next_update prev now wcFps =
      if now < prev + 16 then now + 16 else prev + 16 := rfl
  rcases Nat.lt_or_ge now (prev + 16) with h | h
  · exact Or.inr (by rw [hdef, if_pos h])
  · exact Or.inl (by rw [hdef, if_neg (Nat.not_lt.mpr h)])

lemma on_frame_arrived_emits (next_update now fps : Nat) (hwnd : Int)
    (b : FrameBuffer) (hgate : ¬ now < next_update) (hh : b.height ≠ 0)
    (hs : b.pixels.length / b.height = ceil_nth b.width 64)
    (bytes : List Nat)
    (hcopy : copyRows b.pixels b.width (b.pixels.length / b.height) b.height
      = some bytes) :
    (on_frame_arrived next_update now fps hwnd (some b)).1 =
      .emitted ⟨hwnd, b.width, b.height, bytes⟩ := by
  simp only [on_frame_arrived]
  rw [if_neg hgate]
  simp only [hh, if_false]
  rw [if_neg (not_not_intro hs), hcopy]

lemma on_frame_arrived_panics_on_mismatch (next_update now fps : Nat)
    (hwnd : Int) (b : FrameBuffer) (hgate : ¬ now < next_update)
    (hh : b.height ≠ 0)
    (hs : b.pixels.length / b.height ≠ ceil_nth b.width 64) :
    (on_frame_arrived next_update now fps hwnd (some b)).1 = .panicked := by
  simp only [on_frame_arrived]
  rw [if_neg hgate]
  simp only [hh, if_false]
  rw [if_pos hs]

/-- C1: a raw delivery with `height > 0` that passes the rate gate and the
stride assertion (`pixels.len / height = ceil_nth width 64`) makes the worker
emit exactly one frame whose bytes are, row by row for `i in 0..height`, the
`width*4` bytes of `pixels[i*stride .. i*stride+width]` — padding columns
never reach the output — and whose byte length is exactly
`width*height*4`. -/
theorem C1_conversion_strips_padding (next_update now fps : Nat) (hwnd : Int)
    (b : FrameBuffer) (hgate : ¬ now < next_update) (hh : 0 < b.height)
    (hs : b.pixels.length / b.height = ceil_nth b.width 64) :
    (on_frame_arrived next_update now fps hwnd (some b)).1 =
        .emitted ⟨hwnd, b.width, b.height,
          (List.range b.height).flatMap (fun i =>
            ((b.pixels.drop (i * (b.pixels.length / b.height))).take
              b.width).flatMap rgbaBytes)⟩ ∧
      ((List.range b.height).flatMap (fun i =>
          ((b.pixels.drop (i * (b.pixels.length / b.height))).take
            b.width).flatMap rgbaBytes)).length = b.width * b.height * 4 := by
  have hb0 : b.height ≠ 0 := Nat.pos_iff_ne_zero.mp hh
  have hbounds : ∀ j, j < b.height →
      (0 + j) * (b.pixels.length / b.height) + b.width ≤ b.pixels.length := by
    intro j hj
    simpa using rows_in_bounds b.pixels.length b.height b.width hh hs j hj
  have hcopy := copyRowsAux_eq b.pixels b.width
    (b.pixels.length / b.height) b.height 0 hbounds
  simp only [Nat.zero_add] at hcopy
  have hcopy2 : copyRows b.pixels b.width (b.pixels.length / b.height)
      b.height = some ((List.range b.height).flatMap (fun i =>
        ((b.pixels.drop (i * (b.pixels.length / b.height))).take
          b.width).flatMap rgbaBytes)) := hcopy
  refine ⟨on_frame_arrived_emits next_update now fps hwnd b hgate hb0 hs _
    hcopy2, ?_⟩
  have hlen := copyRowsAux_length b.pixels b.width
    (b.pixels.length / b.height) b.height 0 _ hcopy
  rw [hlen]
  ring

set_option maxRecDepth 40000

/-- Witness for C1: the spec's padded-buffer scenario at width 130, stride
rounded up to 192, with `0xAA` pixels in bounds and `0xFF` in the padding
columns (two rows: 384 pixels).  The emitted frame has exactly
`130*2*4 = 1040` bytes, every byte is `0xAA`, and no `0xFF` byte occurs. -/
theorem C1_witness :
    (¬ (0 : Nat) < 0) ∧ (0 < 2) ∧
      ((List.range (2 * 192)).map (fun j => if j % 192 < 130 then
          (⟨0xAA, 0xAA, 0xAA, 0xAA⟩ : RGBA) else
          ⟨0xFF, 0xFF, 0xFF, 0xFF⟩)).length / 2 = ceil_nth 130 64 ∧
      ((on_frame_arrived 0 0 60 7 (some ⟨130, 2,
          (List.range (2 * 192)).map (fun j => if j % 192 < 130 then
            (⟨0xAA, 0xAA, 0xAA, 0xAA⟩ : RGBA) else
            ⟨0xFF, 0xFF, 0xFF, 0xFF⟩)⟩)).1 =
          .emitted ⟨7, 130, 2,
            (List.range 2).flatMap (fun i =>
              ((((List.range (2 * 192)).map (fun j => if j % 192 < 130 then
                  (⟨0xAA, 0xAA, 0xAA, 0xAA⟩ : RGBA) else
                  ⟨0xFF, 0xFF, 0xFF, 0xFF⟩)).drop
                (i * (((List.range (2 * 192)).map (fun j =>
                  if j % 192 < 130 then
                    (⟨0xAA, 0xAA, 0xAA, 0xAA⟩ : RGBA) else
                    ⟨0xFF, 0xFF, 0xFF, 0xFF⟩)).length / 2))).take
                130).flatMap rgbaBytes)⟩ ∧
        ((List.range 2).flatMap (fun i =>
            ((((List.range (2 * 192)).map (fun j => if j % 192 < 130 then
                (⟨0xAA, 0xAA, 0xAA, 0xAA⟩ : RGBA) else
                ⟨0xFF, 0xFF, 0xFF, 0xFF⟩)).drop
              (i * (((List.range (2 * 192)).map (fun j =>
                if j % 192 < 130 then
                  (⟨0xAA, 0xAA, 0xAA, 0xAA⟩ : RGBA) else
                  ⟨0xFF, 0xFF, 0xFF, 0xFF⟩)).length / 2))).take
              130).flatMap rgbaBytes)).length = 130 * 2 * 4) ∧
      ((List.range 2).flatMap (fun i =>
          ((((List.range (2 * 192)).map (fun j => if j % 192 < 130 then
              (⟨0xAA, 0xAA, 0xAA, 0xAA⟩ : RGBA) else
              ⟨0xFF, 0xFF, 0xFF, 0xFF⟩)).drop
            (i * (((List.range (2 * 192)).map (fun j =>
              if j % 192 < 130 then
                (⟨0xAA, 0xAA, 0xAA, 0xAA⟩ : RGBA) else
                ⟨0xFF, 0xFF, 0xFF, 0xFF⟩)).length / 2))).take
            130).flatMap rgbaBytes)) = List.replicate 1040 0xAA ∧
      ((List.replicate 1040 (0xAA : Nat)).contains 0xFF) = false :=
  ⟨by decide, by decide, by decide,
    C1_conversion_strips_padding 0 0 60 7 ⟨130, 2,
      (List.range (2 * 192)).map (fun j => if j % 192 < 130 then
        (⟨0xAA, 0xAA, 0xAA, 0xAA⟩ : RGBA) else ⟨0xFF, 0xFF, 0xFF, 0xFF⟩)⟩
      (by decide) (by decide) (by decide),
    by decide, by decide⟩

/-- C7: with `height > 0` and the rate gate passed, a stride mismatch
(`pixels.len / height ≠ ceil_nth width 64`) makes `on_frame_arrived` abort
the worker (the `assert_eq!` panics); when the assertion holds, every row
slice `pixels[i*stride .. i*stride+width]` taken by the copy loop is within
bounds, the copy succeeds without any out-of-range access, and the converted
frame is emitted. -/
theorem C7_stride_assertion_guards_bounds (next_update now fps : Nat)
    (hwnd : Int) (b : FrameBuffer) (hgate : ¬ now < next_update)
    (hh : 0 < b.height) :
    (b.pixels.length / b.height ≠ ceil_nth b.width 64 →
        (on_frame_arrived next_update now fps hwnd (some b)).1 = .panicked) ∧
      (b.pixels.length / b.height = ceil_nth b.width 64 →
        (∀ i, i < b.height →
          i * (b.pixels.length / b.height) + b.width ≤ b.pixels.length) ∧
        ∃ bytes, copyRows b.pixels b.width (b.pixels.length / b.height)
            b.height = some bytes ∧
          (on_frame_arrived next_update now fps hwnd (some b)).1 =
            .emitted ⟨hwnd, b.width, b.height, bytes⟩) := by
  have hb0 : b.height ≠ 0 := Nat.pos_iff_ne_zero.mp hh
  constructor
  · intro hs
    exact on_frame_arrived_panics_on_mismatch next_update now fps hwnd b
      hgate hb0 hs
  · intro hs
    refine ⟨rows_in_bounds b.pixels.length b.height b.width hh hs, ?_⟩
    have hbounds : ∀ j, j < b.height →
        (0 + j) * (b.pixels.length / b.height) + b.width ≤
          b.pixels.length := by
      intro j hj
      simpa using rows_in_bounds b.pixels.length b.height b.width hh hs j hj
    have hcopy := copyRowsAux_eq b.pixels b.width
      (b.pixels.length / b.height) b.height 0 hbounds
    exact ⟨_, hcopy,
      on_frame_arrived_emits next_update now fps hwnd b hgate hb0 hs _ hcopy⟩

/-- Witness for C7: a 1×1 buffer delivered with only 63 pixels (stride 63,
not the expected 64) aborts the worker; with the expected 64 pixels the
bounds hold and a frame is emitted. -/
theorem C7_witness :
    (¬ (0 : Nat) < 0) ∧ (0 < 1) ∧
      (((List.replicate 63 (⟨1, 2, 3, 4⟩ : RGBA)).length / 1 ≠
            ceil_nth 1 64 →
          (on_frame_arrived 0 0 60 7 (some ⟨1, 1,
            List.replicate 63 ⟨1, 2, 3, 4⟩⟩)).1 = .panicked) ∧
        ((List.replicate 63 (⟨1, 2, 3, 4⟩ : RGBA)).length / 1 =
            ceil_nth 1 64 →
          (∀ i, i < 1 → i * ((List.replicate 63 (⟨1, 2, 3, 4⟩ : RGBA)).length
              / 1) + 1 ≤ (List.replicate 63 (⟨1, 2, 3, 4⟩ : RGBA)).length) ∧
          ∃ bytes, copyRows (List.replicate 63 ⟨1, 2, 3, 4⟩) 1
              ((List.replicate 63 (⟨1, 2, 3, 4⟩ : RGBA)).length / 1) 1 =
              some bytes ∧
            (on_frame_arrived 0 0 60 7 (some ⟨1, 1,
              List.replicate 63 ⟨1, 2, 3, 4⟩⟩)).1 =
              .emitted ⟨7, 1, 1, bytes⟩)) ∧
      (on_frame_arrived 0 0 60 7 (some ⟨1, 1,
        List.replicate 63 ⟨1, 2, 3, 4⟩⟩)).1 = .panicked :=
  ⟨by decide, by decide,
    C7_stride_assertion_guards_bounds 0 0 60 7
      ⟨1, 1, List.replicate 63 ⟨1, 2, 3, 4⟩⟩ (by decide) (by decide),
    (C7_stride_assertion_guards_bounds 0 0 60 7
      ⟨1, 1, List.replicate 63 ⟨1, 2, 3, 4⟩⟩ (by decide) (by decide)).1
      (by decide)⟩

/-- C5: in one supervisor iteration the captures phase polls closures before
frames.  If a session keyed `A` has a `Closed A` status message pending, then
after `handle_captures_message` the registry no longer contains `A`, and every
frame the subsequent `handle_captures_frames` forwards comes from a remaining
session keyed differently from `A` — the unread frame sitting in `A`'s frame
channel is never delivered. -/
theorem C5_closures_processed_before_frames (s : DriverState) (A : Int)
    (sess : CaptureSession) (hmem : (A, sess) ∈ s.cap_rxs)
    (hmsg : sess.rx_msg.head? = some (.Closed A)) :
    containsKey (handle_captures_message s).cap_rxs A = false ∧
      ∀ f ∈ (iterationCapturesPhase s).2,
        ∃ p ∈ (handle_captures_message s).cap_rxs,
          p.1 ≠ A ∧ p.2.rx_frame.head? = some f := by
  have hrm := handle_captures_message_removes s A sess hmem hmsg
  refine ⟨hrm, fun f hf => ?_⟩
  have hf2 : f ∈ (handle_captures_frames (handle_captures_message s)).2 := hf
  rcases mem_handle_captures_frames_sent _ f hf2 with ⟨p, hp, hhead, _⟩
  exact ⟨p, hp, (containsKey_eq_false_iff _ A).mp hrm p hp, hhead⟩

/-- Witness for C5: session 3 reports `Closed 3` while a frame for handle 3
sits unread in its channel; after the captures phase, 3 is gone from the
registry and every forwarded frame comes from a differently keyed session. -/
theorem C5_witness :
    ((3 : Int), (⟨[.Closed 3], [⟨3, 1, 1, [9]⟩]⟩ : CaptureSession)) ∈
        (⟨[(3, ⟨[.Closed 3], [⟨3, 1, 1, [9]⟩]⟩),
           (4, ⟨[], [⟨4, 1, 1, [8]⟩]⟩)], some 3⟩ : DriverState).cap_rxs ∧
      (⟨[.Closed 3], [⟨3, 1, 1, [9]⟩]⟩ :
        CaptureSession).rx_msg.head? = some (.Closed 3) ∧
      (containsKey (handle_captures_message
          ⟨[(3, ⟨[.Closed 3], [⟨3, 1, 1, [9]⟩]⟩),
            (4, ⟨[], [⟨4, 1, 1, [8]⟩]⟩)], some 3⟩).cap_rxs 3 = false ∧
        ∀ f ∈ (iterationCapturesPhase
            ⟨[(3, ⟨[.Closed 3], [⟨3, 1, 1, [9]⟩]⟩),
              (4, ⟨[], [⟨4, 1, 1, [8]⟩]⟩)], some 3⟩).2,
          ∃ p ∈ (handle_captures_message
              ⟨[(3, ⟨[.Closed 3], [⟨3, 1, 1, [9]⟩]⟩),
                (4, ⟨[], [⟨4, 1, 1, [8]⟩]⟩)], some 3⟩).cap_rxs,
            p.1 ≠ 3 ∧ p.2.rx_frame.head? = some f) :=
  ⟨by decide, by decide,
    C5_closures_processed_before_frames
      ⟨[(3, ⟨[.Closed 3], [⟨3, 1, 1, [9]⟩]⟩),
        (4, ⟨[], [⟨4, 1, 1, [8]⟩]⟩)], some 3⟩ 3
      ⟨[.Closed 3], [⟨3, 1, 1, [9]⟩]⟩ (by decide) (by decide)⟩

/-- C6: frame polling forwards a frame exactly when its handle equals the
recorded focus: every forwarded frame's handle equals `current_hwnd`
(frames for unfocused windows, or with no focus recorded, are never
forwarded); every session's head frame is consumed from its channel either
way (the registry afterwards holds each channel's tail — dropped frames are
not requeued); and a pending head frame whose handle equals the focus is
forwarded. -/
theorem C6_forward_iff_focused (s : DriverState) :
    (∀ f ∈ (handle_captures_frames s).2, s.current_hwnd = some f.hwnd) ∧
      ((handle_captures_frames s).1.cap_rxs =
        s.cap_rxs.map (fun p => (p.1, ⟨p.2.rx_msg, p.2.rx_frame.tail⟩))) ∧
      (∀ p ∈ s.cap_rxs, ∀ f, p.2.rx_frame.head? = some f →
        s.current_hwnd = some f.hwnd → f ∈ (handle_captures_frames s).2) := by
  refine ⟨fun f hf => ?_, handle_captures_frames_cap_rxs s,
    fun p hp f hhead hcur =>
      handle_captures_frames_sent_of s p hp f hhead hcur⟩
  rcases mem_handle_captures_frames_sent s f hf with ⟨p, hp, hhead, hcur⟩
  exact hcur

/-- Witness for C6: with focus on handle 3, the pending frame for 3 is
forwarded and its handle equals the focus; the frame for 4 is consumed but
not forwarded; both channels hold their tails afterwards. -/
theorem C6_witness :
    ((⟨[(3, ⟨[], [⟨3, 1, 1, [9]⟩]⟩), (4, ⟨[], [⟨4, 1, 1, [8]⟩]⟩)],
          some 3⟩ : DriverState).current_hwnd =
        some (⟨3, 1, 1, [9]⟩ : CapturedFrame).hwnd) ∧
      ((handle_captures_frames
          ⟨[(3, ⟨[], [⟨3, 1, 1, [9]⟩]⟩), (4, ⟨[], [⟨4, 1, 1, [8]⟩]⟩)],
            some 3⟩).1.cap_rxs =
        (⟨[(3, ⟨[], [⟨3, 1, 1, [9]⟩]⟩), (4, ⟨[], [⟨4, 1, 1, [8]⟩]⟩)],
            some 3⟩ : DriverState).cap_rxs.map
          (fun p => (p.1, ⟨p.2.rx_msg, p.2.rx_frame.tail⟩))) ∧
      (⟨3, 1, 1, [9]⟩ : CapturedFrame) ∈ (handle_captures_frames
        ⟨[(3, ⟨[], [⟨3, 1, 1, [9]⟩]⟩), (4, ⟨[], [⟨4, 1, 1, [8]⟩]⟩)],
          some 3⟩).2 ∧
      ((handle_captures_frames
        ⟨[(3, ⟨[], [⟨3, 1, 1, [9]⟩]⟩), (4, ⟨[], [⟨4, 1, 1, [8]⟩]⟩)],
          some 3⟩).2 = [⟨3, 1, 1, [9]⟩]) :=
  ⟨(C6_forward_iff_focused
      ⟨[(3, ⟨[], [⟨3, 1, 1, [9]⟩]⟩), (4, ⟨[], [⟨4, 1, 1, [8]⟩]⟩)],
        some 3⟩).1 ⟨3, 1, 1, [9]⟩ (by decide),
    (C6_forward_iff_focused
      ⟨[(3, ⟨[], [⟨3, 1, 1, [9]⟩]⟩), (4, ⟨[], [⟨4, 1, 1, [8]⟩]⟩)],
        some 3⟩).2.1,
    (C6_forward_iff_focused
      ⟨[(3, ⟨[], [⟨3, 1, 1, [9]⟩]⟩), (4, ⟨[], [⟨4, 1, 1, [8]⟩]⟩)],
        some 3⟩).2.2 (3, ⟨[], [⟨3, 1, 1, [9]⟩]⟩) (by decide)
      ⟨3, 1, 1, [9]⟩ (by decide) (by decide),
    by decide⟩
